import Mathlib

/-!
Verification of the sign-language clip pipeline (`src/app.py`).

The embedding models the external world explicitly:
* the clip store is a function `Token → HttpResponse`, covering transport
  errors (`requests.get` raising), arbitrary status codes, containers the
  decoder rejects, and decoded GIFs whose frame iteration may raise after
  an arbitrary prefix of frames has been processed (`failAt`);
* the translation service is a `TranslateResult` record (status code plus
  the optional `sign_grammar` field of its JSON body);
* durations are exact rationals (seconds), mirroring the source's
  `meta_data.get("duration", 100) / 1000.0`.

The endpoint is instrumented: it returns, together with its result, a flag
recording whether the translation call was made and the ordered list of
tokens passed to `get_gif_frames`, so that claims of the form "no network
calls are made" are statable.
-/

namespace SignLang

/-- Tokens are the strings the pipeline fetches clips for; character lists
make the letter-by-letter fallback (`for letter in word`) direct. -/
abbrev Token := List Char

/-- One raw decoded frame: its pixel dimensions plus an opaque content id.
The claims only inspect dimensions and counts, never pixel values. -/
structure RawFrame where
  width : Nat
  height : Nat
  data : Nat
deriving DecidableEq, Repr

/-- Body of a 200 response from the clip store, as seen by `imageio`:
either the container fails to decode (`get_reader`/`get_meta_data` raise),
or it decodes to metadata (optional per-clip duration, in milliseconds)
and a frame list; `failAt = some k` models an exception raised while
iterating frames after `k` of them were appended. -/
inductive GifBody where
  | undecodable : GifBody
  | gif (metaDuration : Option ℚ) (rawFrames : List RawFrame)
      (failAt : Option Nat) : GifBody
deriving DecidableEq

/-- Outcome of `requests.get` for one token: a transport error (exception)
or a status code with a body. -/
inductive HttpResponse where
  | error : HttpResponse
  | ok (status : Nat) (body : GifBody) : HttpResponse
deriving DecidableEq

/-- The pair of parallel lists `get_gif_frames` returns. -/
structure Clip where
  frames : List RawFrame
  durations : List ℚ
deriving DecidableEq

/-- The `frames, durations = [], []` starting value, also the value
returned on every swallowed failure. -/
def emptyClip : Clip := ⟨[], []⟩

/-- Embedding of `resize_frame` (src/app.py lines 30-35): Python's
`int(target_height * (img.width / img.height))` truncates toward zero,
which on nonnegative values is floor division; the height becomes the
fixed target 480. -/
def resize_frame (f : RawFrame) : RawFrame :=
  { width := 480 * f.width / f.height, height := 480, data := f.data }

/-- The frame loop of `get_gif_frames` (lines 57-63): each raw frame is
resized (the JPEG re-encode and base64 step is an injective encoding the
claims never inspect, so the resized frame stands for the encoded string)
and the single per-clip duration is appended once per frame. -/
def framesLoop (frame_duration : ℚ) : List RawFrame → Clip
  | [] => emptyClip
  | f :: fs =>
    let rest := framesLoop frame_duration fs
    ⟨resize_frame f :: rest.frames, frame_duration :: rest.durations⟩

/-- Embedding of `get_gif_frames` (lines 38-66): on a transport error, a
non-200 status, or a container that fails to decode, the `except` clause
returns the still-empty lists; on a decoded GIF the per-clip duration is
`meta.get("duration", 100) / 1000` and frames are processed until the end
or until the exception point `failAt`, whose caught exception returns the
frames accumulated so far. -/
def get_gif_frames (env : Token → HttpResponse) (word : Token) : Clip :=
  match env word with
  | .error => emptyClip
  | .ok status body =>
    if status = 200 then
      match body with
      | .undecodable => emptyClip
      | .gif meta raw failAt =>
        let frame_duration := meta.getD 100 / 1000
        let processed := match failAt with
          | none => raw
          | some k => raw.take k
        framesLoop frame_duration processed
    else emptyClip

/-- Responses on which the claim C1 predicates failure: a transport
error, a non-success status, or a body the container decoder rejects. -/
def failedResponse : HttpResponse → Bool
  | .error => true
  | .ok _ .undecodable => true
  | .ok status (.gif _ _ _) => status != 200

/-- The letter-by-letter fallback loop (lines 95-104): every character is
fetched, and only characters whose fetch produced frames are extended
onto the accumulators. The second component logs the fetched tokens. -/
def lettersLoop (env : Token → HttpResponse) : List Char → Clip × List Token
  | [] => (emptyClip, [])
  | c :: cs =>
    let lclip := get_gif_frames env [c]
    let rest := lettersLoop env cs
    if lclip.frames = [] then (rest.1, [c] :: rest.2)
    else (⟨lclip.frames ++ rest.1.frames, lclip.durations ++ rest.1.durations⟩,
          [c] :: rest.2)

/-- Resolution of one token (lines 92-104): the whole-word fetch, then,
exactly when it produced no frames, the letter fallback. The log records
every token passed to `get_gif_frames`. -/
def resolveWord (env : Token → HttpResponse) (word : Token) : Clip × List Token :=
  let clip := get_gif_frames env word
  if clip.frames = [] then
    let lr := lettersLoop env word
    (lr.1, word :: lr.2)
  else (clip, [word])

/-- One element of the response's `frames` array (lines 107-111). -/
structure WordEntry where
  word : Token
  frames : List RawFrame
  durations : List ℚ
deriving DecidableEq

/-- The word loop of the endpoint (lines 91-111): builds the entry list in
input order, accumulates `total_duration += sum(durations)`, and threads
the fetch log. -/
def processWords (env : Token → HttpResponse) :
    List Token → List WordEntry × ℚ × List Token
  | [] => ([], 0, [])
  | w :: ws =>
    let r := resolveWord env w
    let rest := processWords env ws
    (⟨w, r.1.frames, r.1.durations⟩ :: rest.1,
     r.1.durations.sum + rest.2.1,
     r.2 ++ rest.2.2)

/-- The 200 response body (lines 113-118). -/
structure Timeline where
  original_text : Token
  sign_grammar : Token
  frames : List WordEntry
  total_duration : ℚ
deriving DecidableEq

/-- What the translation service answered: its status code and the
optional `sign_grammar` field of its JSON body (`none` models an absent
field, which `translate_data.get("sign_grammar", "")` turns into `""`). -/
structure TranslateResult where
  status : Nat
  sign_grammar : Option Token
deriving DecidableEq

/-- Either an `HTTPException` with a status code or a 200 Timeline. -/
inductive EndpointResult where
  | httpError (status : Nat) : EndpointResult
  | ok (timeline : Timeline) : EndpointResult
deriving DecidableEq

/-- Result of one request together with the observable network activity:
whether the translation call happened and which tokens were fetched. -/
structure EndpointTrace where
  result : EndpointResult
  translateCalled : Bool
  fetchLog : List Token
deriving DecidableEq

/-- Whitespace splitter on character lists, the semantics of Python's
`str.split()` with no argument: maximal runs of non-whitespace characters,
with no empty tokens. The accumulator holds the current run reversed. -/
def splitAux (acc : List Char) : List Char → List Token
  | [] => if acc = [] then [] else [acc.reverse]
  | c :: cs =>
    if c.isWhitespace then
      if acc = [] then splitAux [] cs else acc.reverse :: splitAux [] cs
    else splitAux (c :: acc) cs

/-- Tokenization of the sign grammar, as `sign_grammar.lower().split()`
uses it (line 87). -/
def splitWords (s : List Char) : List Token := splitAux [] s

/-- Embedding of the `/get_frames` endpoint (lines 69-118). Guards in
source order: empty or absent `text` is a 400 before the translation call;
a non-200 translation status is propagated; an empty or absent
`sign_grammar` is a 400; otherwise the grammar is lower-cased, split, and
each word resolved in order. -/
def get_frames_endpoint (tEnv : TranslateResult) (gEnv : Token → HttpResponse)
    (request_text : Option Token) : EndpointTrace :=
  if request_text.getD [] = [] then ⟨.httpError 400, false, []⟩
  else if tEnv.status ≠ 200 then ⟨.httpError tEnv.status, true, []⟩
  else if tEnv.sign_grammar.getD [] = [] then ⟨.httpError 400, true, []⟩
  else
    ⟨.ok ⟨request_text.getD [],
          tEnv.sign_grammar.getD [],
          (processWords gEnv (splitWords ((tEnv.sign_grammar.getD []).map Char.toLower))).1,
          (processWords gEnv (splitWords ((tEnv.sign_grammar.getD []).map Char.toLower))).2.1⟩,
     true,
     (processWords gEnv (splitWords ((tEnv.sign_grammar.getD []).map Char.toLower))).2.2⟩

/-- Concatenation of clips, used to state the spec's description of the
letter fallback. -/
def concatClips : List Clip → Clip
  | [] => emptyClip
  | c :: cs => ⟨c.frames ++ (concatClips cs).frames,
               c.durations ++ (concatClips cs).durations⟩

/-- Stated from the spec's words for the refinement claim C2: "the ordered
concatenation of `ClipFetcher.fetch(c)` for each character `c` in `t`,
with empty per-character results omitted and order preserved" (a Clip is
empty when it has zero frames). -/
def specLetterFallback (env : Token → HttpResponse) (word : Token) : Clip :=
  concatClips (((word.map fun c => get_gif_frames env [c]).filter
    fun cl => !cl.frames.isEmpty))

/-- Clip store that always raises a transport error. -/
def envError : Token → HttpResponse := fun _ => .error

/-- Clip store that answers every request with one decodable frame and no
duration metadata. -/
def envOneFrame : Token → HttpResponse :=
  fun _ => .ok 200 (.gif none [⟨640, 360, 7⟩] none)

/-- Clip store that always answers 404. -/
def env404 : Token → HttpResponse :=
  fun _ => .ok 404 (.gif (some 40) [⟨8, 8, 1⟩] none)

/-- Clip store that always answers 200 with an undecodable body. -/
def envUndecodable : Token → HttpResponse := fun _ => .ok 200 .undecodable

/-- A sample token. -/
def tok1 : Token := ['h', 'i']

/-- Translation service answering 200 with grammar "hi". -/
def tEnvOk : TranslateResult := ⟨200, some ['h', 'i']⟩

/-- Translation service answering 503. -/
def tEnv503 : TranslateResult := ⟨503, some ['h', 'i']⟩

/-- Translation service answering 200 with the grammar field absent. -/
def tEnvNoGrammar : TranslateResult := ⟨200, none⟩

/-- Translation service answering 200 with a whitespace-only grammar. -/
def tEnvWs : TranslateResult := ⟨200, some [' ', '\t']⟩

/-- Timeline produced for grammar "hi" when every fetch fails. -/
def tlEmpty : Timeline := ⟨['h', 'i'], ['h', 'i'], [⟨['h', 'i'], [], []⟩], 0⟩

/-- Fetch log for grammar "hi" when every fetch fails: the word, then each
letter of the fallback. -/
def logEmpty : List Token := [['h', 'i'], ['h'], ['i']]

lemma framesLoop_frames (d : ℚ) (l : List RawFrame) :
    (framesLoop d l).frames = l.map resize_frame := by
  induction l with
  | nil => rfl
  | cons f fs ih => simp [framesLoop, ih]

lemma framesLoop_durations (d : ℚ) (l : List RawFrame) :
    (framesLoop d l).durations = List.replicate l.length d := by
  induction l with
  | nil => rfl
  | cons f fs ih => simp [framesLoop, ih, List.replicate]

lemma get_gif_frames_gif (env : Token → HttpResponse) (word : Token)
    (meta : Option ℚ) (raw : List RawFrame) (failAt : Option Nat)
    (h : env word = .ok 200 (.gif meta raw failAt)) :
    get_gif_frames env word =
      framesLoop (meta.getD 100 / 1000)
        (match failAt with | none => raw | some k => raw.take k) := by
  cases failAt with
  | none => simp [get_gif_frames, h]
  | some k => simp [get_gif_frames, h]

lemma get_gif_frames_len (env : Token → HttpResponse) (word : Token) :
    (get_gif_frames env word).frames.length =
      (get_gif_frames env word).durations.length := by
  cases henv : env word with
  | error => simp [get_gif_frames, henv, emptyClip]
  | ok status body =>
    cases body with
    | undecodable =>
      by_cases hs : status = 200 <;> simp [get_gif_frames, henv, hs, emptyClip]
    | gif meta raw failAt =>
      by_cases hs : status = 200 <;>
        simp [get_gif_frames, henv, hs, emptyClip, framesLoop_frames,
          framesLoop_durations]

lemma get_gif_frames_nil_iff (env : Token → HttpResponse) (word : Token) :
    (get_gif_frames env word).frames = [] ↔
      (get_gif_frames env word).durations = [] := by
  rw [← List.length_eq_zero, ← List.length_eq_zero, get_gif_frames_len]

lemma lettersLoop_clip (env : Token → HttpResponse) (cs : List Char) :
    (lettersLoop env cs).1 =
      concatClips ((cs.map fun c => get_gif_frames env [c]).filter
        fun cl => !cl.frames.isEmpty) := by
  induction cs with
  | nil => rfl
  | cons c cs ih =>
    by_cases hc : (get_gif_frames env [c]).frames = []
    · simp [lettersLoop, hc, List.filter_cons, List.isEmpty_iff, ih]
    · have hne : ¬(get_gif_frames env [c]).frames.isEmpty = true := by
        simpa [List.isEmpty_iff] using hc
      simp [lettersLoop, hc, List.filter_cons, hne, concatClips, ih]

lemma lettersLoop_log (env : Token → HttpResponse) (cs : List Char) :
    (lettersLoop env cs).2 = cs.map fun c => [c] := by
  induction cs with
  | nil => rfl
  | cons c cs ih =>
    by_cases hc : (get_gif_frames env [c]).frames = [] <;>
      simp [lettersLoop, hc, ih]

lemma lettersLoop_len (env : Token → HttpResponse) (cs : List Char) :
    (lettersLoop env cs).1.frames.length =
      (lettersLoop env cs).1.durations.length := by
  induction cs with
  | nil => rfl
  | cons c cs ih =>
    by_cases hc : (get_gif_frames env [c]).frames = []
    · simpa [lettersLoop, hc] using ih
    · simp [lettersLoop, hc, get_gif_frames_len, ih]

lemma lettersLoop_all_empty (env : Token → HttpResponse) (cs : List Char)
    (h : ∀ c ∈ cs, (get_gif_frames env [c]).frames = []) :
    (lettersLoop env cs).1 = emptyClip := by
  induction cs with
  | nil => rfl
  | cons c cs ih =>
    have hc : (get_gif_frames env [c]).frames = [] := h c (by simp)
    have hrest : (lettersLoop env cs).1 = emptyClip :=
      ih fun d hd => h d (by simp [hd])
    simp [lettersLoop, hc, hrest]

lemma resolveWord_len (env : Token → HttpResponse) (word : Token) :
    (resolveWord env word).1.frames.length =
      (resolveWord env word).1.durations.length := by
  by_cases h : (get_gif_frames env word).frames = []
  · simp [resolveWord, h, lettersLoop_len]
  · simp [resolveWord, h, get_gif_frames_len]

lemma processWords_entries (env : Token → HttpResponse) (ws : List Token) :
    (processWords env ws).1 = ws.map fun w =>
      ⟨w, (resolveWord env w).1.frames, (resolveWord env w).1.durations⟩ := by
  induction ws with
  | nil => rfl
  | cons w ws ih => simp [processWords, ih]

lemma processWords_total (env : Token → HttpResponse) (ws : List Token) :
    (processWords env ws).2.1 =
      (((processWords env ws).1.map WordEntry.durations).flatten).sum := by
  induction ws with
  | nil => rfl
  | cons w ws ih => simp [processWords, ih, List.sum_append]

lemma endpoint_ok_inv (tEnv : TranslateResult) (gEnv : Token → HttpResponse)
    (text : Option Token) (tl : Timeline) (b : Bool) (log : List Token)
    (h : get_frames_endpoint tEnv gEnv text = ⟨.ok tl, b, log⟩) :
    tl = ⟨text.getD [], tEnv.sign_grammar.getD [],
          (processWords gEnv
            (splitWords ((tEnv.sign_grammar.getD []).map Char.toLower))).1,
          (processWords gEnv
            (splitWords ((tEnv.sign_grammar.getD []).map Char.toLower))).2.1⟩ := by
  unfold get_frames_endpoint at h
  split at h
  · injection h with hr hb hl
    exact EndpointResult.noConfusion hr
  · split at h
    · injection h with hr hb hl
      exact EndpointResult.noConfusion hr
    · split at h
      · injection h with hr hb hl
        exact EndpointResult.noConfusion hr
      · injection h with hr hb hl
        injection hr with htl
        exact htl.symm

lemma toLower_whitespace (c : Char) (h : c.isWhitespace = true) :
    (Char.toLower c).isWhitespace = true := by
  have hc : c = ' ' ∨ c = '\t' ∨ c = '\r' ∨ c = '\n' := by
    simpa [Char.isWhitespace, or_assoc] using h
  rcases hc with rfl | rfl | rfl | rfl <;> decide

lemma splitAux_whitespace (l : List Char)
    (h : ∀ c ∈ l, c.isWhitespace = true) : splitAux [] l = [] := by
  induction l with
  | nil => rfl
  | cons c cs ih =>
    have hc : c.isWhitespace = true := h c (by simp)
    have hrest : splitAux [] cs = [] := ih fun d hd => h d (by simp [hd])
    simp [splitAux, hc, hrest]

lemma endpoint_eval_empty :
    get_frames_endpoint tEnvOk envError (some tok1) =
      ⟨.ok tlEmpty, true, logEmpty⟩ := by
  have h1 : splitWords ((['h', 'i'] : List Char).map Char.toLower) =
      [['h', 'i']] := by decide
  simp [get_frames_endpoint, tEnvOk, tok1, h1, processWords, resolveWord,
    lettersLoop, get_gif_frames, envError, emptyClip, tlEmpty, logEmpty]

/-- C1: for every token, `get_gif_frames` never raises an error upward
(it is a total function of the environment by construction), and on any
transport error, non-success HTTP status, or container-decode failure it
returns the empty Clip with zero frames and zero durations. -/
theorem C1_fetch_failure_empty (env : Token → HttpResponse) (word : Token)
    (h : failedResponse (env word) = true) :
    get_gif_frames env word = emptyClip := by
  cases henv : env word with
  | error => simp [get_gif_frames, henv]
  | ok status body =>
    rw [henv] at h
    cases body with
    | undecodable =>
      by_cases hs : status = 200 <;> simp [get_gif_frames, henv, hs]
    | gif meta raw failAt =>
      have hs : status ≠ 200 := by
        simpa [failedResponse, bne_iff_ne] using h
      simp [get_gif_frames, henv, hs]

theorem C1_fetch_failure_empty_witness :
    get_gif_frames envError tok1 = emptyClip ∧
    get_gif_frames env404 tok1 = emptyClip ∧
    get_gif_frames envUndecodable tok1 = emptyClip :=
  ⟨C1_fetch_failure_empty envError tok1 (by decide),
   C1_fetch_failure_empty env404 tok1 (by decide),
   C1_fetch_failure_empty envUndecodable tok1 (by decide)⟩

/-- C2: if the whole-word fetch is non-empty, resolution returns exactly
that Clip and the fetch log shows no letter fetch; if it is empty, the
resolved Clip equals the spec's description of the fallback — the ordered
concatenation of the per-character fetches with empty results omitted. -/
theorem C2_resolution_fallback (env : Token → HttpResponse) (word : Token) :
    ((get_gif_frames env word).frames ≠ [] →
      resolveWord env word = (get_gif_frames env word, [word])) ∧
    ((get_gif_frames env word).frames = [] →
      (resolveWord env word).1 = specLetterFallback env word) := by
  constructor
  · intro h
    simp [resolveWord, h]
  · intro h
    simp [resolveWord, h, specLetterFallback, lettersLoop_clip]

theorem C2_resolution_fallback_witness :
    resolveWord envOneFrame tok1 = (get_gif_frames envOneFrame tok1, [tok1]) ∧
    (resolveWord envError tok1).1 = specLetterFallback envError tok1 :=
  ⟨(C2_resolution_fallback envOneFrame tok1).1 (by decide),
   (C2_resolution_fallback envError tok1).2 (by decide)⟩

/-- C3: the Timeline's total_duration equals the flat sum of every
frame's duration across every WordEntry, and any permutation of those
durations (exact rationals, so "floating-point associativity tolerance"
is exact equality here) sums to the same total. -/
theorem C3_total_duration (tEnv : TranslateResult)
    (gEnv : Token → HttpResponse) (text : Option Token) (tl : Timeline)
    (b : Bool) (log : List Token)
    (h : get_frames_endpoint tEnv gEnv text = ⟨.ok tl, b, log⟩) :
    tl.total_duration = ((tl.frames.map WordEntry.durations).flatten).sum ∧
    ∀ l : List ℚ, l.Perm ((tl.frames.map WordEntry.durations).flatten) →
      l.sum = tl.total_duration := by
  have hinv := endpoint_ok_inv tEnv gEnv text tl b log h
  subst hinv
  refine ⟨by simpa using processWords_total gEnv _, ?_⟩
  intro l hperm
  rw [hperm.sum_eq]
  simpa using (processWords_total gEnv _).symm

theorem C3_total_duration_witness :
    tlEmpty.total_duration =
      ((tlEmpty.frames.map WordEntry.durations).flatten).sum ∧
    List.sum ([] : List ℚ) = tlEmpty.total_duration :=
  ⟨(C3_total_duration tEnvOk envError (some tok1) tlEmpty true logEmpty
      endpoint_eval_empty).1,
   (C3_total_duration tEnvOk envError (some tok1) tlEmpty true logEmpty
      endpoint_eval_empty).2 [] (by decide)⟩

/-- C4: the fetched Clip, the resolved Clip, and every WordEntry of a 200
response all have equally long frame and duration lists, for every
environment — in particular for decodes that fail after an arbitrary
prefix of frames (`failAt`). -/
theorem C4_lengths_match (tEnv : TranslateResult)
    (gEnv : Token → HttpResponse) (text : Option Token) :
    (∀ word, (get_gif_frames gEnv word).frames.length =
      (get_gif_frames gEnv word).durations.length) ∧
    (∀ word, (resolveWord gEnv word).1.frames.length =
      (resolveWord gEnv word).1.durations.length) ∧
    (∀ tl b log, get_frames_endpoint tEnv gEnv text = ⟨.ok tl, b, log⟩ →
      ∀ e ∈ tl.frames, e.frames.length = e.durations.length) := by
  refine ⟨fun w => get_gif_frames_len gEnv w,
    fun w => resolveWord_len gEnv w, ?_⟩
  intro tl b log h e he
  have hinv := endpoint_ok_inv tEnv gEnv text tl b log h
  subst hinv
  rw [processWords_entries] at he
  obtain ⟨w, hw, rfl⟩ := List.mem_map.1 he
  exact resolveWord_len gEnv w

theorem C4_lengths_match_witness :
    (get_gif_frames envError tok1).frames.length =
      (get_gif_frames envError tok1).durations.length ∧
    (WordEntry.mk tok1 [] []).frames.length =
      (WordEntry.mk tok1 [] []).durations.length :=
  ⟨(C4_lengths_match tEnvOk envError (some tok1)).1 tok1,
   (C4_lengths_match tEnvOk envError (some tok1)).2.2 tlEmpty true logEmpty
     endpoint_eval_empty ⟨tok1, [], []⟩ (by decide)⟩

/-- C5: for a frame of positive height, `resize_frame` outputs height
exactly 480 and a width within 1 of `round(480 * W / H)` — the source
truncates (`int(...)`) where the spec says round, hence the ±1 bound. -/
theorem C5_resize_dimensions (f : RawFrame) (h : 0 < f.height) :
    (resize_frame f).height = 480 ∧
    |((resize_frame f).width : ℤ) -
        round ((480 * (f.width : ℚ)) / (f.height : ℚ))| ≤ 1 := by
  refine ⟨rfl, ?_⟩
  have hH : (0 : ℚ) < (f.height : ℚ) := by exact_mod_cast h
  set n : Nat := 480 * f.width / f.height with hn
  set q : ℚ := (480 * (f.width : ℚ)) / (f.height : ℚ) with hq
  have h1 : (n : ℚ) ≤ q := by
    rw [hq, le_div_iff₀ hH]
    exact_mod_cast Nat.div_mul_le_self (480 * f.width) f.height
  have h2n : 480 * f.width < (n + 1) * f.height := by
    have hr : (480 * f.width) % f.height < f.height :=
      Nat.mod_lt _ h
    have hdm := Nat.div_add_mod (480 * f.width) f.height
    calc 480 * f.width
        = f.height * n + (480 * f.width) % f.height := by rw [hn]; omega
      _ < f.height * n + f.height := by omega
      _ = (n + 1) * f.height := by ring
  have h2 : q < (n : ℚ) + 1 := by
    rw [hq, div_lt_iff₀ hH]
    calc (480 : ℚ) * (f.width : ℚ) = ((480 * f.width : Nat) : ℚ) := by
          push_cast; ring
      _ < (((n + 1) * f.height : Nat) : ℚ) := by exact_mod_cast h2n
      _ = ((n : ℚ) + 1) * (f.height : ℚ) := by push_cast; ring
  have habs : |(n : ℚ) - q| < 1 := by
    rw [abs_lt]
    constructor <;> linarith
  have hround := abs_sub_round q
  have htri : |(n : ℚ) - ((round q : ℤ) : ℚ)| < 3 / 2 := by
    calc |(n : ℚ) - ((round q : ℤ) : ℚ)|
        ≤ |(n : ℚ) - q| + |q - ((round q : ℤ) : ℚ)| := abs_sub_le _ q _
      _ < 3 / 2 := by linarith
  have hint : |(n : ℤ) - round q| ≤ 1 := by
    by_contra hcon
    push_neg at hcon
    have h2' : (2 : ℤ) ≤ |(n : ℤ) - round q| := by omega
    have h2q : (2 : ℚ) ≤ |(n : ℚ) - ((round q : ℤ) : ℚ)| := by
      calc (2 : ℚ) = ((2 : ℤ) : ℚ) := by norm_num
        _ ≤ ((|(n : ℤ) - round q| : ℤ) : ℚ) := by exact_mod_cast h2'
        _ = |((n : ℤ) : ℚ) - ((round q : ℤ) : ℚ)| := by
            push_cast
            simp [abs_sub_comm]
        _ = |(n : ℚ) - ((round q : ℤ) : ℚ)| := by push_cast; ring_nf
    linarith
  simpa [resize_frame, hn, hq] using hint

theorem C5_resize_dimensions_witness :
    (resize_frame ⟨1, 7, 0⟩).height = 480 ∧
    |((resize_frame ⟨1, 7, 0⟩).width : ℤ) -
        round ((480 * ((RawFrame.mk 1 7 0).width : ℚ)) /
          ((RawFrame.mk 1 7 0).height : ℚ))| ≤ 1 :=
  C5_resize_dimensions ⟨1, 7, 0⟩ (by decide)

/-- C6: when the request text is non-empty, a non-200 translation status
is propagated as the response status with an empty fetch log (no clip
fetch attempted), and a 200 translation whose grammar is empty or absent
yields a 400. -/
theorem C6_translation_errors (tEnv : TranslateResult)
    (gEnv : Token → HttpResponse) (text : Option Token)
    (htext : text.getD [] ≠ []) :
    (tEnv.status ≠ 200 →
      get_frames_endpoint tEnv gEnv text =
        ⟨.httpError tEnv.status, true, []⟩) ∧
    (tEnv.status = 200 → tEnv.sign_grammar.getD [] = [] →
      get_frames_endpoint tEnv gEnv text = ⟨.httpError 400, true, []⟩) := by
  constructor
  · intro hs
    simp [get_frames_endpoint, htext, hs]
  · intro hs hg
    simp [get_frames_endpoint, htext, hs, hg]

theorem C6_translation_errors_witness :
    get_frames_endpoint tEnv503 envError (some tok1) =
      ⟨.httpError 503, true, []⟩ ∧
    get_frames_endpoint tEnvNoGrammar envError (some tok1) =
      ⟨.httpError 400, true, []⟩ :=
  ⟨(C6_translation_errors tEnv503 envError (some tok1) (by decide)).1
     (by decide),
   (C6_translation_errors tEnvNoGrammar envError (some tok1) (by decide)).2
     (by decide) (by decide)⟩

/-- C7: an empty or absent `text` field yields a 400 before any network
activity: the translation-called flag is false and the fetch log empty. -/
theorem C7_empty_text (tEnv : TranslateResult)
    (gEnv : Token → HttpResponse) (text : Option Token)
    (h : text.getD [] = []) :
    get_frames_endpoint tEnv gEnv text = ⟨.httpError 400, false, []⟩ := by
  simp [get_frames_endpoint, h]

theorem C7_empty_text_witness :
    get_frames_endpoint tEnvOk envError none =
      ⟨.httpError 400, false, []⟩ ∧
    get_frames_endpoint tEnvOk envError (some []) =
      ⟨.httpError 400, false, []⟩ :=
  ⟨C7_empty_text tEnvOk envError none rfl,
   C7_empty_text tEnvOk envError (some []) rfl⟩

/-- C8: a successfully decoded clip gets one per-clip duration from its
metadata — `1/10` of a second when absent — and the output duration list
is that single value repeated once per output frame. -/
theorem C8_uniform_durations (env : Token → HttpResponse) (word : Token)
    (meta : Option ℚ) (raw : List RawFrame) (failAt : Option Nat)
    (h : env word = .ok 200 (.gif meta raw failAt)) :
    (get_gif_frames env word).durations =
      List.replicate (get_gif_frames env word).frames.length
        (meta.getD 100 / 1000) ∧
    (meta = none →
      (get_gif_frames env word).durations =
        List.replicate (get_gif_frames env word).frames.length (1 / 10)) := by
  have hg := get_gif_frames_gif env word meta raw failAt h
  constructor
  · rw [hg, framesLoop_durations, framesLoop_frames, List.length_map]
  · intro hm
    subst hm
    rw [hg, framesLoop_durations, framesLoop_frames, List.length_map]
    norm_num

theorem C8_uniform_durations_witness :
    (get_gif_frames envOneFrame tok1).durations =
      List.replicate (get_gif_frames envOneFrame tok1).frames.length
        ((none : Option ℚ).getD 100 / 1000) ∧
    ((none : Option ℚ) = none →
      (get_gif_frames envOneFrame tok1).durations =
        List.replicate (get_gif_frames envOneFrame tok1).frames.length
          (1 / 10)) :=
  C8_uniform_durations envOneFrame tok1 none [⟨640, 360, 7⟩] none rfl

/-- C9: a 200 response has one WordEntry per grammar token in order (the
pipeline never aborts on unresolvable tokens), and a token whose word
fetch and per-letter fetches are all empty yields an entry with empty
frames, empty durations, and a zero duration sum. -/
theorem C9_zero_letter_token (tEnv : TranslateResult)
    (gEnv : Token → HttpResponse) (text : Option Token) (tl : Timeline)
    (b : Bool) (log : List Token)
    (h : get_frames_endpoint tEnv gEnv text = ⟨.ok tl, b, log⟩) :
    tl.frames.map WordEntry.word =
      splitWords ((tEnv.sign_grammar.getD []).map Char.toLower) ∧
    ∀ e ∈ tl.frames,
      (get_gif_frames gEnv e.word).frames = [] →
      (∀ c ∈ e.word, (get_gif_frames gEnv [c]).frames = []) →
      e.frames = [] ∧ e.durations = [] ∧ e.durations.sum = 0 := by
  have hinv := endpoint_ok_inv tEnv gEnv text tl b log h
  subst hinv
  constructor
  · have hcomp : (WordEntry.word ∘ fun w =>
        (⟨w, (resolveWord gEnv w).1.frames,
          (resolveWord gEnv w).1.durations⟩ : WordEntry)) = id := rfl
    rw [Timeline.frames, processWords_entries, List.map_map, hcomp, List.map_id]
  · intro e he hw hc
    rw [processWords_entries] at he
    obtain ⟨w, hwmem, rfl⟩ := List.mem_map.1 he
    have hres : (resolveWord gEnv w).1 = emptyClip := by
      simp [resolveWord, hw, lettersLoop_all_empty gEnv w hc]
    simp [hres, emptyClip]

theorem C9_zero_letter_token_witness :
    tlEmpty.frames.map WordEntry.word =
      splitWords ((tEnvOk.sign_grammar.getD []).map Char.toLower) ∧
    ((WordEntry.mk tok1 [] []).frames = [] ∧
      (WordEntry.mk tok1 [] []).durations = [] ∧
      (WordEntry.mk tok1 [] []).durations.sum = 0) :=
  ⟨(C9_zero_letter_token tEnvOk envError (some tok1) tlEmpty true logEmpty
      endpoint_eval_empty).1,
   (C9_zero_letter_token tEnvOk envError (some tok1) tlEmpty true logEmpty
      endpoint_eval_empty).2 ⟨tok1, [], []⟩ (by decide) (by decide) (by decide)⟩

/-- C10: a whitespace-only, non-empty grammar passes the emptiness check
(Python's truthiness test), splits to zero tokens, and the endpoint
returns a 200 Timeline with no WordEntry, total_duration 0 and no clip
fetch performed. -/
theorem C10_whitespace_grammar (tEnv : TranslateResult)
    (gEnv : Token → HttpResponse) (text : Option Token) (g : Token)
    (htext : text.getD [] ≠ []) (hst : tEnv.status = 200)
    (hg : tEnv.sign_grammar = some g) (hne : g ≠ [])
    (hws : ∀ c ∈ g, c.isWhitespace = true) :
    get_frames_endpoint tEnv gEnv text =
      ⟨.ok ⟨text.getD [], g, [], 0⟩, true, []⟩ := by
  have hsplit : splitWords (g.map Char.toLower) = [] := by
    apply splitAux_whitespace
    intro c hc
    obtain ⟨d, hd, rfl⟩ := List.mem_map.1 hc
    exact toLower_whitespace d (hws d hd)
  simp [get_frames_endpoint, htext, hst, hg, hne, splitWords] at hsplit ⊢
  simp [hsplit, processWords]

theorem C10_whitespace_grammar_witness :
    get_frames_endpoint tEnvWs envError (some tok1) =
      ⟨.ok ⟨tok1, [' ', '\t'], [], 0⟩, true, []⟩ :=
  C10_whitespace_grammar tEnvWs envError (some tok1) [' ', '\t']
    (by decide) rfl rfl (by decide) (by decide)

end SignLang
